import Mathlib

/-!
Verification of the Recode schedule core: a shallow embedding of
`app/services/schedule_service.py` and `app/services/schedule_watchdog.py`.

Dates are modelled as proleptic-Gregorian ordinal day numbers (`Int`), the
representation underlying Python's `datetime.date.toordinal`; ordinal 1 is a
Monday, so `date.weekday()` is `(ordinal - 1) % 7` with Monday = 0.
-/

namespace Recode

/-- `d.weekday()` for a date with ordinal number `d`: Monday = 0 … Sunday = 6. -/
def pyWeekday (d : Int) : Int :=
  (d - 1) % 7

/-- Embeds `week_mon_sat_for_display` (schedule_service.py lines 26-35):
a Saturday/Sunday anchor (weekday 5 or 6) is shifted forward by `7 - wd`
days, then the pair `(monday, monday + 5)` of the (possibly shifted) base
week is returned. -/
def week_mon_sat_for_display (now_date : Int) : Int × Int :=
  let wd := pyWeekday now_date
  let base := if wd = 5 ∨ wd = 6 then now_date + (7 - wd) else now_date
  let monday := base - pyWeekday base
  (monday, monday + 5)

/-- Embeds `week_bounds_mon_sun` (schedule_service.py lines 20-23). -/
def week_bounds_mon_sun (d : Int) : Int × Int :=
  let monday := d - pyWeekday d
  (monday, monday + 6)

/-- Embeds the sweep of `_cleanup_old_files` (schedule_service.py lines
569-586).  A stored cache entry is modelled by its parsed filename window
`(start_date, end_date)`; the sweep deletes a file exactly when
`end_date < monday_current` where `monday_current` is the first component of
`week_mon_sat_for_display current_date`.  Files whose names fail to parse
are skipped (kept), so entries here are the parsed windows. -/
def cleanup_old_files (entries : List (Int × Int)) (current_date : Int) :
    List (Int × Int) :=
  entries.filter (fun e => !decide (e.2 < (week_mon_sat_for_display current_date).1))

theorem pyWeekday_nonneg (d : Int) : 0 ≤ pyWeekday d := by
  unfold pyWeekday; omega

theorem pyWeekday_lt_seven (d : Int) : pyWeekday d < 7 := by
  unfold pyWeekday; omega

/-- Claim C3: for every anchor date `d`, `week_mon_sat_for_display d`
returns `(monday, saturday)` with `monday` falling on a Monday and
`saturday = monday + 5`; for a Monday–Friday anchor,
`monday ≤ d ≤ saturday`; for a Saturday/Sunday anchor, `monday` is the
Monday of the next calendar week (the current week's Monday plus 7),
strictly after `d`. -/
theorem week_mon_sat_for_display_spec (d : Int) :
    pyWeekday (week_mon_sat_for_display d).1 = 0 ∧
    (week_mon_sat_for_display d).2 = (week_mon_sat_for_display d).1 + 5 ∧
    (pyWeekday d ≤ 4 →
      (week_mon_sat_for_display d).1 ≤ d ∧ d ≤ (week_mon_sat_for_display d).2) ∧
    ((pyWeekday d = 5 ∨ pyWeekday d = 6) →
      (week_mon_sat_for_display d).1 = (d - pyWeekday d) + 7 ∧
      d < (week_mon_sat_for_display d).1) := by
  dsimp only [week_mon_sat_for_display, pyWeekday]
  split_ifs <;> omega

/-- Witness for C3: the theorem evaluated at the Friday with ordinal 5 and
at the Saturday with ordinal 6 (ordinal 1 being a Monday). -/
theorem week_mon_sat_for_display_spec_witness :
    (pyWeekday 5 ≤ 4 ∧
      (week_mon_sat_for_display 5).1 ≤ 5 ∧ (5 : Int) ≤ (week_mon_sat_for_display 5).2) ∧
    (pyWeekday 6 = 5 ∧
      (week_mon_sat_for_display 6).1 = (6 - pyWeekday 6) + 7 ∧
      (6 : Int) < (week_mon_sat_for_display 6).1) := by
  refine ⟨⟨by decide, (week_mon_sat_for_display_spec 5).2.2.1 (by decide)⟩,
    ⟨by decide, (week_mon_sat_for_display_spec 6).2.2.2 (.inl (by decide))⟩⟩

/-- Counterexample to claim C1 as stated: with current date the Saturday of
ordinal 6, the stored entry with window `(1, 6)` contains the current date,
yet the sweep deletes it, because the sweep threshold is the Monday of the
*display* week, which for a Saturday anchor is the next week's Monday. -/
theorem cleanup_old_files_evicts_current_week_on_saturday :
    pyWeekday 6 = 5 ∧ (1 : Int) ≤ 6 ∧ (6 : Int) ≤ 6 ∧
    cleanup_old_files [(1, 6)] 6 = [] := by
  decide

/-- Claim C1 (amended): the sweep deletes exactly the entries whose window
end precedes the Monday of the *display* week of the current date `d`: for
a Monday–Friday `d` that Monday is the Monday of `d`'s own week, so an
entry whose window contains `d` is never deleted then; for a Saturday or
Sunday `d` the threshold is the *next* week's Monday, so the entry of `d`'s
own week (window end at most `d`'s Saturday) is deleted. -/
theorem cleanup_old_files_spec (entries : List (Int × Int)) (d : Int)
    (e : Int × Int) (he : e ∈ entries) :
    (e ∈ cleanup_old_files entries d ↔ ¬ e.2 < (week_mon_sat_for_display d).1) ∧
    (pyWeekday d ≤ 4 → (week_mon_sat_for_display d).1 = d - pyWeekday d) ∧
    (pyWeekday d ≤ 4 → e.1 ≤ d → d ≤ e.2 → e ∈ cleanup_old_files entries d) ∧
    ((pyWeekday d = 5 ∨ pyWeekday d = 6) →
      (week_mon_sat_for_display d).1 = (d - pyWeekday d) + 7) := by
  have hmem : e ∈ cleanup_old_files entries d ↔ ¬ e.2 < (week_mon_sat_for_display d).1 := by
    unfold cleanup_old_files
    simp [List.mem_filter, he]
  have hmon : (pyWeekday d ≤ 4 → (week_mon_sat_for_display d).1 = d - pyWeekday d) ∧
      ((pyWeekday d = 5 ∨ pyWeekday d = 6) →
        (week_mon_sat_for_display d).1 = (d - pyWeekday d) + 7) := by
    dsimp only [week_mon_sat_for_display, pyWeekday]
    split_ifs <;> omega
  refine ⟨hmem, hmon.1, ?_, hmon.2⟩
  intro hwd h1 h2
  refine hmem.2 ?_
  have := hmon.1 hwd
  have := pyWeekday_nonneg d
  omega

/-- Witness for the amended C1: with current date the Wednesday of ordinal
3, the entry `(1, 6)` covering it survives the sweep, and the deletion
threshold is that week's own Monday. -/
theorem cleanup_old_files_spec_witness :
    (1, 6) ∈ cleanup_old_files [(1, 6)] 3 ∧
    (week_mon_sat_for_display 3).1 = 3 - pyWeekday 3 := by
  have h := cleanup_old_files_spec [(1, 6)] 3 (1, 6) (by decide)
  exact ⟨h.2.2.1 (by decide) (by decide) (by decide), h.2.1 (by decide)⟩

/-! ## String normalization (`_clean` / `_norm_join`, schedule_watchdog.py lines 27-28, 66-67) -/

/-- The whitespace class matched by the `\s` of the watchdog's regular
expressions (ASCII core of Python's unicode `\s`). -/
def isPySpace (c : Char) : Bool :=
  c = ' ' || c = '\t' || c = '\n' || c = '\r' ||
    c = Char.ofNat 0x0b || c = Char.ofNat 0x0c

/-- One pass of `re.sub(r"\s+", " ", ·)`: every maximal whitespace run is
replaced by a single space.  `prevSpace` records whether the previous
character belonged to a run already replaced. -/
def collapseWsAux : Bool → List Char → List Char
  | _, [] => []
  | prevSpace, c :: cs =>
    if isPySpace c then
      if prevSpace then collapseWsAux true cs
      else ' ' :: collapseWsAux true cs
    else c :: collapseWsAux false cs

/-- Python `str.strip()` restricted to the spaces that survive the collapse. -/
def stripSpaces (cs : List Char) : List Char :=
  ((cs.dropWhile isPySpace).reverse.dropWhile isPySpace).reverse

/-- Embeds the watchdog's `_clean` (schedule_watchdog.py lines 27-28):
replace NBSP by a space, collapse whitespace runs to a single space, strip. -/
def pyClean (s : String) : String :=
  let repl := s.data.map (fun c => if c = Char.ofNat 0xa0 then ' ' else c)
  String.mk (stripSpaces (collapseWsAux false repl))

/-- Embeds `_norm_join` (schedule_watchdog.py lines 66-67):
`_clean(" | ".join([_clean(x) for x in (arr or []) if _clean(x)]))`. -/
def norm_join (arr : List String) : String :=
  pyClean (String.intercalate " | " ((arr.map pyClean).filter (fun x => x ≠ "")))

/-! ## Slot maps and the diff (`_build_changes`, schedule_watchdog.py lines 70-91)

A Python `dict[int, list[str]]` is modelled as an association list; keys of an
actual dict are distinct, and `dictGet`/`dictKeys` mirror `d.get(k) or []` and
`d.keys()`. -/

abbrev SlotMap : Type := List (Nat × List String)

/-- `m.get(k) or []` on a slot dict. -/
def dictGet (m : SlotMap) (k : Nat) : List String :=
  match List.lookup k m with
  | some v => v
  | none => []

def dictKeys (m : SlotMap) : List Nat :=
  m.map Prod.fst

/-- Insertion step of the sort used to model Python's `sorted`. -/
def insertSorted (x : Nat) : List Nat → List Nat
  | [] => [x]
  | y :: ys => if x ≤ y then x :: y :: ys else y :: insertSorted x ys

/-- Models Python's `sorted` on a list of distinct numbers (any correct sort
produces the same list there). -/
def sortNat : List Nat → List Nat
  | [] => []
  | x :: xs => insertSorted x (sortNat xs)

/-- `sorted(set(old_slots.keys()) | set(new_slots.keys()))` of
`_build_changes`. -/
def sortedKeys (old_slots new_slots : SlotMap) : List Nat :=
  sortNat ((dictKeys old_slots ++ dictKeys new_slots).dedup)

/-- Embeds `_build_changes` (schedule_watchdog.py lines 70-91).  The Python
loop appends each key to at most one of three independent lists, which is
expressed here as one `filterMap` per list over the same sorted key list;
the branch conditions are exactly the loop's: a key with both sides empty is
skipped, `o_s and not n_s` goes to `removed`, `not o_s and n_s` to `added`,
and the remaining case reaching `o_s != n_s` has both sides non-empty. -/
def build_changes (old_slots new_slots : SlotMap) :
    List (Nat × String) × List (Nat × String) × List (Nat × String × String) :=
  let keys := sortedKeys old_slots new_slots
  let removed := keys.filterMap (fun k =>
    let o_s := norm_join (dictGet old_slots k)
    let n_s := norm_join (dictGet new_slots k)
    if o_s ≠ "" ∧ n_s = "" then some (k, o_s) else none)
  let added := keys.filterMap (fun k =>
    let o_s := norm_join (dictGet old_slots k)
    let n_s := norm_join (dictGet new_slots k)
    if o_s = "" ∧ n_s ≠ "" then some (k, n_s) else none)
  let changed := keys.filterMap (fun k =>
    let o_s := norm_join (dictGet old_slots k)
    let n_s := norm_join (dictGet new_slots k)
    if o_s ≠ "" ∧ n_s ≠ "" ∧ o_s ≠ n_s then some (k, o_s, n_s) else none)
  (removed, added, changed)

theorem insertSorted_perm (x : Nat) (l : List Nat) :
    List.Perm (insertSorted x l) (x :: l) := by
  induction l with
  | nil => simp [insertSorted]
  | cons y ys ih =>
    unfold insertSorted
    split
    · exact List.Perm.refl _
    · exact ((ih.cons y).trans (List.Perm.swap x y ys))

theorem sortNat_perm (l : List Nat) : List.Perm (sortNat l) l := by
  induction l with
  | nil => simp [sortNat]
  | cons x xs ih =>
    exact (insertSorted_perm x (sortNat xs)).trans (ih.cons x)

theorem mem_sortedKeys (o n : SlotMap) (k : Nat) :
    k ∈ sortedKeys o n ↔ k ∈ dictKeys o ∨ k ∈ dictKeys n := by
  unfold sortedKeys
  rw [(sortNat_perm _).mem_iff, List.mem_dedup, List.mem_append]

theorem insertSorted_sorted (x : Nat) (l : List Nat)
    (h : l.Pairwise (· ≤ ·)) : (insertSorted x l).Pairwise (· ≤ ·) := by
  induction l with
  | nil => simp [insertSorted]
  | cons y ys ih =>
    unfold insertSorted
    rw [List.pairwise_cons] at h
    split
    · rename_i hxy
      rw [List.pairwise_cons]
      refine ⟨?_, List.pairwise_cons.mpr h⟩
      intro a ha
      rcases List.mem_cons.mp ha with rfl | ha
      · exact hxy
      · exact le_trans hxy (h.1 a ha)
    · rename_i hxy
      rw [List.pairwise_cons]
      refine ⟨?_, ih h.2⟩
      intro a ha
      have ha2 : a ∈ x :: ys := (insertSorted_perm x ys).mem_iff.mp ha
      rcases List.mem_cons.mp ha2 with rfl | ha3
      · omega
      · exact h.1 a ha3

theorem sortNat_sorted (l : List Nat) : (sortNat l).Pairwise (· ≤ ·) := by
  induction l with
  | nil => simp [sortNat]
  | cons x xs ih => exact insertSorted_sorted x (sortNat xs) ih

theorem sortedKeys_pairwise_lt (o n : SlotMap) :
    (sortedKeys o n).Pairwise (· < ·) := by
  have hnd : (sortedKeys o n).Nodup :=
    (sortNat_perm _).symm.nodup (List.nodup_dedup _)
  have hle := sortNat_sorted ((dictKeys o ++ dictKeys n).dedup)
  exact ((hle.and hnd).imp (fun h => lt_of_le_of_ne h.1 h.2))

theorem pairwiseFst_filterMap {β : Type} (keys : List Nat) (f : Nat → Option β)
    (g : β → Nat) (hf : ∀ k b, f k = some b → g b = k)
    (h : keys.Pairwise (· < ·)) :
    (keys.filterMap f).Pairwise (fun a b => g a < g b) := by
  induction keys with
  | nil => simp
  | cons k ks ih =>
    rw [List.pairwise_cons] at h
    rw [List.filterMap_cons]
    cases hfk : f k with
    | none => exact ih h.2
    | some b =>
      rw [List.pairwise_cons]
      refine ⟨?_, ih h.2⟩
      intro c hc
      obtain ⟨k', hk', hfk'⟩ := List.mem_filterMap.mp hc
      rw [hf k b hfk, hf k' c hfk']
      exact h.1 k' hk'

theorem eq_of_pairwiseFstLt_of_memEquiv {β : Type} (g : β → Nat) :
    ∀ (l₁ l₂ : List β), l₁.Pairwise (fun a b => g a < g b) →
      l₂.Pairwise (fun a b => g a < g b) →
      (∀ x, x ∈ l₁ ↔ x ∈ l₂) → l₁ = l₂ := by
  intro l₁
  induction l₁ with
  | nil =>
    intro l₂ _ _ hmem
    cases l₂ with
    | nil => rfl
    | cons b t => exact absurd ((hmem b).mpr (List.mem_cons_self b t)) (by simp)
  | cons a t₁ ih =>
    intro l₂ h₁ h₂ hmem
    cases l₂ with
    | nil => exact absurd ((hmem a).mp (List.mem_cons_self a t₁)) (by simp)
    | cons b t₂ =>
      rw [List.pairwise_cons] at h₁ h₂
      have hab : a = b := by
        rcases List.mem_cons.mp ((hmem a).mp (List.mem_cons_self a t₁)) with h | h
        · exact h
        · rcases List.mem_cons.mp ((hmem b).mpr (List.mem_cons_self b t₂)) with h' | h'
          · exact h'.symm
          · have := h₂.1 a h
            have := h₁.1 b h'
            omega
      subst hab
      have htails : ∀ x, x ∈ t₁ ↔ x ∈ t₂ := by
        intro x
        constructor
        · intro hx
          rcases List.mem_cons.mp ((hmem x).mp (List.mem_cons.mpr (Or.inr hx))) with h | h
          · subst h; exact absurd (h₁.1 x hx) (lt_irrefl _)
          · exact h
        · intro hx
          rcases List.mem_cons.mp ((hmem x).mpr (List.mem_cons.mpr (Or.inr hx))) with h | h
          · subst h; exact absurd (h₂.1 x hx) (lt_irrefl _)
          · exact h
      rw [ih t₂ h₁.2 h₂.2 htails]

/-- Claim C5: the diff classifies every pair number present in either map:
removed exactly when old content non-empty and new empty, added exactly when
old empty and new non-empty, changed exactly when both non-empty and
textually different; pairs empty in both contribute nothing; and the three
concrete spec examples evaluate as stated. -/
theorem build_changes_spec (o n : SlotMap) (k : Nat) (s t : String) :
    ((k, s) ∈ (build_changes o n).1 ↔
      (k ∈ dictKeys o ∨ k ∈ dictKeys n) ∧ s = norm_join (dictGet o k) ∧
        norm_join (dictGet o k) ≠ "" ∧ norm_join (dictGet n k) = "") ∧
    ((k, s) ∈ (build_changes o n).2.1 ↔
      (k ∈ dictKeys o ∨ k ∈ dictKeys n) ∧ s = norm_join (dictGet n k) ∧
        norm_join (dictGet o k) = "" ∧ norm_join (dictGet n k) ≠ "") ∧
    ((k, s, t) ∈ (build_changes o n).2.2 ↔
      (k ∈ dictKeys o ∨ k ∈ dictKeys n) ∧ s = norm_join (dictGet o k) ∧
        t = norm_join (dictGet n k) ∧ norm_join (dictGet o k) ≠ "" ∧
        norm_join (dictGet n k) ≠ "" ∧
        norm_join (dictGet o k) ≠ norm_join (dictGet n k)) ∧
    build_changes [(1, ["A"])] [(1, ["A"])] = ([], [], []) ∧
    build_changes [(1, ["A"])] [(1, ["B"])] = ([], [], [(1, "A", "B")]) ∧
    build_changes [] [(1, ["C"])] = ([], [(1, "C")], []) := by
  refine ⟨?_, ?_, ?_, by decide, by decide, by decide⟩
  · unfold build_changes
    simp only [List.mem_filterMap]
    constructor
    · rintro ⟨k', hk', hf⟩
      split at hf
      · rename_i hcond
        simp only [Option.some.injEq, Prod.mk.injEq] at hf
        obtain ⟨hA, hB⟩ := hf
        subst hA
        exact ⟨(mem_sortedKeys o n k').mp hk', hB.symm, hcond⟩
      · exact absurd hf (by simp)
    · rintro ⟨hk, hs, h1, h2⟩
      refine ⟨k, (mem_sortedKeys o n k).mpr hk, ?_⟩
      rw [if_pos ⟨h1, h2⟩, hs]
  · unfold build_changes
    simp only [List.mem_filterMap]
    constructor
    · rintro ⟨k', hk', hf⟩
      split at hf
      · rename_i hcond
        simp only [Option.some.injEq, Prod.mk.injEq] at hf
        obtain ⟨hA, hB⟩ := hf
        subst hA
        exact ⟨(mem_sortedKeys o n k').mp hk', hB.symm, hcond⟩
      · exact absurd hf (by simp)
    · rintro ⟨hk, hs, h1, h2⟩
      refine ⟨k, (mem_sortedKeys o n k).mpr hk, ?_⟩
      rw [if_pos ⟨h1, h2⟩, hs]
  · unfold build_changes
    simp only [List.mem_filterMap]
    constructor
    · rintro ⟨k', hk', hf⟩
      split at hf
      · rename_i hcond
        simp only [Option.some.injEq, Prod.mk.injEq] at hf
        obtain ⟨hA, hB1, hB2⟩ := hf
        subst hA
        exact ⟨(mem_sortedKeys o n k').mp hk', hB1.symm, hB2.symm,
          hcond.1, hcond.2.1, hcond.2.2⟩
      · exact absurd hf (by simp)
    · rintro ⟨hk, hs, ht, h1, h2, h3⟩
      refine ⟨k, (mem_sortedKeys o n k).mpr hk, ?_⟩
      rw [if_pos ⟨h1, h2, h3⟩, hs, ht]

/-! ## False-cancel heuristic, fingerprint, and the per-target decision
(schedule_watchdog.py lines 158-161 and 243-273) -/

/-- Embeds `_should_skip_false_cancel` (schedule_watchdog.py lines 158-161):
counts the slots with non-empty normalized content on each side and skips
when the old side had some and the new side has none. -/
def should_skip_false_cancel (old_slots new_slots : SlotMap) : Bool :=
  decide
    (0 < (old_slots.filter (fun kv => decide (norm_join kv.2 ≠ ""))).length ∧
      (new_slots.filter (fun kv => decide (norm_join kv.2 ≠ ""))).length = 0)

def hexDigit (n : Nat) : Char :=
  if n < 10 then Char.ofNat (48 + n) else Char.ofNat (87 + n)

def hex4 (n : Nat) : String :=
  String.mk [hexDigit (n / 4096 % 16), hexDigit (n / 256 % 16),
    hexDigit (n / 16 % 16), hexDigit (n % 16)]

/-- One character of `json.dumps` string encoding with `ensure_ascii=False`. -/
def jsonEscapeChar (c : Char) : String :=
  if c = '"' then "\\\""
  else if c = '\\' then "\\\\"
  else if c = '\n' then "\\n"
  else if c = '\r' then "\\r"
  else if c = '\t' then "\\t"
  else if c = Char.ofNat 8 then "\\b"
  else if c = Char.ofNat 12 then "\\f"
  else if c.toNat < 32 then "\\u" ++ hex4 c.toNat
  else String.singleton c

def jsonStr (s : String) : String :=
  "\"" ++ String.join (s.data.map jsonEscapeChar) ++ "\""

/-- A `(pair number, text)` tuple as serialized by `json.dumps`. -/
def jsonPair (p : Nat × String) : String :=
  "[" ++ toString p.1 ++ ", " ++ jsonStr p.2 ++ "]"

/-- A `(pair number, old, new)` tuple as serialized by `json.dumps`. -/
def jsonTriple (p : Nat × String × String) : String :=
  "[" ++ toString p.1 ++ ", " ++ jsonStr p.2.1 ++ ", " ++ jsonStr p.2.2 ++ "]"

def jsonList {α : Type} (f : α → String) (l : List α) : String :=
  "[" ++ String.intercalate ", " (l.map f) ++ "]"

/-- Embeds the fingerprint of the watchdog loop (schedule_watchdog.py lines
248-251): `json.dumps` of the dict with keys `rem`, `add`, `chg` in insertion
order, default separators, tuples rendered as arrays, `ensure_ascii=False`. -/
def mkFingerprint (removed added : List (Nat × String))
    (changed : List (Nat × String × String)) : String :=
  "\x7b\"rem\": " ++ jsonList jsonPair removed ++
    ", \"add\": " ++ jsonList jsonPair added ++
    ", \"chg\": " ++ jsonList jsonTriple changed ++ "\x7d"

/-- Outcome of the per-(group, date) decision chain of the watchdog loop
(schedule_watchdog.py lines 243-254): one of the three `continue`s, or a
notification carrying the computed fingerprint. -/
inductive StepResult
  | skip
  | notify (fp : String)
deriving DecidableEq

/-- Embeds the decision chain of one (group, date) target
(schedule_watchdog.py lines 243-254): skip when the diff is empty, when the
false-cancel heuristic fires, or when the persisted fingerprint equals the
fresh one; otherwise notify with the fresh fingerprint. -/
def watchdog_step (old_slots new_slots : SlotMap) (stored : Option String) :
    StepResult :=
  let rac := build_changes old_slots new_slots
  if rac.1 = [] ∧ rac.2.1 = [] ∧ rac.2.2 = [] then .skip
  else if should_skip_false_cancel old_slots new_slots then .skip
  else
    let fp := mkFingerprint rac.1 rac.2.1 rac.2.2
    if stored = some fp then .skip
    else .notify fp

/-- `state[key] = fingerprint` on the persisted fingerprint dict (overwrite
or append, as Python dict assignment). -/
def dictSetS : List (String × String) → String → String → List (String × String)
  | [], k, v => [(k, v)]
  | (k0, v0) :: rest, k, v =>
    if k0 = k then (k, v) :: rest else (k0, v0) :: dictSetS rest k v

/-- The state updates of schedule_watchdog.py lines 271-273
(`_save_week`, `state[key] = fingerprint`), which execute only when none of
the three `continue`s fired: on `skip` the stored week snapshot and the
fingerprint state are left untouched, on `notify` the snapshot is replaced
by the fresh week and the fingerprint is recorded. -/
def apply_step {α : Type} (week : α) (state : List (String × String))
    (key : String) (fresh : α) : StepResult → α × List (String × String)
  | .skip => (week, state)
  | .notify fp => (fresh, dictSetS state key fp)

theorem should_skip_false_cancel_true (old_slots new_slots : SlotMap)
    (hold : ∃ kv ∈ old_slots, norm_join kv.2 ≠ "")
    (hnew : ∀ kv ∈ new_slots, norm_join kv.2 = "") :
    should_skip_false_cancel old_slots new_slots = true := by
  unfold should_skip_false_cancel
  rw [decide_eq_true_eq]
  constructor
  · obtain ⟨kv, hkv, hne⟩ := hold
    have hmem : kv ∈ old_slots.filter (fun kv => decide (norm_join kv.2 ≠ "")) :=
      List.mem_filter.mpr ⟨hkv, by simpa using hne⟩
    exact List.length_pos.mpr (List.ne_nil_of_mem hmem)
  · rw [List.length_eq_zero]
    rw [List.filter_eq_nil_iff]
    intro kv hkv
    simpa using hnew kv hkv

/-- Claim C6: on a total removal (some previously populated pair, every new
pair empty) the watchdog skips the (group, date): no notification, and
neither the week snapshot nor the persisted fingerprint changes; the same
skip with no state update happens when the computed change set is empty. -/
theorem watchdog_total_removal_skips {α : Type} (old_slots new_slots : SlotMap)
    (stored : Option String) (week fresh : α)
    (state : List (String × String)) (key : String) :
    ((∃ kv ∈ old_slots, norm_join kv.2 ≠ "") →
      (∀ kv ∈ new_slots, norm_join kv.2 = "") →
      watchdog_step old_slots new_slots stored = .skip ∧
      apply_step week state key fresh
        (watchdog_step old_slots new_slots stored) = (week, state)) ∧
    (build_changes old_slots new_slots = ([], [], []) →
      watchdog_step old_slots new_slots stored = .skip ∧
      apply_step week state key fresh
        (watchdog_step old_slots new_slots stored) = (week, state)) := by
  constructor
  · intro hold hnew
    have hssfc := should_skip_false_cancel_true old_slots new_slots hold hnew
    have hstep : watchdog_step old_slots new_slots stored = .skip := by
      dsimp only [watchdog_step]
      split_ifs <;> simp_all
    refine ⟨hstep, ?_⟩
    rw [hstep]
    rfl
  · intro hempty
    have hstep : watchdog_step old_slots new_slots stored = .skip := by
      dsimp only [watchdog_step]
      rw [hempty]
      simp
    refine ⟨hstep, ?_⟩
    rw [hstep]
    rfl

/-- Witness for C6: old slots `{1: ["A"]}` against new slots `{1: [""]}` (a
total removal) make the step skip and leave week `0` and state `[]`
untouched. -/
theorem watchdog_total_removal_skips_witness :
    watchdog_step [(1, ["A"])] [(1, [""])] none = .skip ∧
    apply_step (0 : Nat) [] "g:01.01.2024" 1
      (watchdog_step [(1, ["A"])] [(1, [""])] none) = (0, []) := by
  exact (watchdog_total_removal_skips [(1, ["A"])] [(1, [""])] none 0 1 []
    "g:01.01.2024").1 (by decide) (by decide)

theorem build_changes_pairwise (o n : SlotMap) :
    (build_changes o n).1.Pairwise (fun a b => a.1 < b.1) ∧
    (build_changes o n).2.1.Pairwise (fun a b => a.1 < b.1) ∧
    (build_changes o n).2.2.Pairwise (fun a b => a.1 < b.1) := by
  refine ⟨?_, ?_, ?_⟩ <;>
  · refine pairwiseFst_filterMap _ _ Prod.fst ?_ (sortedKeys_pairwise_lt o n)
    intro k b hf
    dsimp only at hf
    split at hf
    · injection hf with h; rw [← h]
    · exact absurd hf (by simp)

/-- Claim C7: the fingerprint is a deterministic, order-insensitive function
of the three change lists (two diffs equal as sets yield the same
fingerprint, the lists being strictly sorted by pair number), and the step
always skips when the persisted fingerprint equals the freshly computed one,
whose value every notification carries — so a repeated identical diff never
re-notifies. -/
theorem fingerprint_dedup_spec (o n o2 n2 : SlotMap) (stored : Option String)
    (fp : String) :
    ((∀ x, x ∈ (build_changes o n).1 ↔ x ∈ (build_changes o2 n2).1) →
     (∀ x, x ∈ (build_changes o n).2.1 ↔ x ∈ (build_changes o2 n2).2.1) →
     (∀ x, x ∈ (build_changes o n).2.2 ↔ x ∈ (build_changes o2 n2).2.2) →
      mkFingerprint (build_changes o n).1 (build_changes o n).2.1
          (build_changes o n).2.2 =
        mkFingerprint (build_changes o2 n2).1 (build_changes o2 n2).2.1
          (build_changes o2 n2).2.2) ∧
    watchdog_step o n (some (mkFingerprint (build_changes o n).1
      (build_changes o n).2.1 (build_changes o n).2.2)) = .skip ∧
    (watchdog_step o n stored = .notify fp →
      fp = mkFingerprint (build_changes o n).1 (build_changes o n).2.1
        (build_changes o n).2.2) := by
  refine ⟨?_, ?_, ?_⟩
  · intro h1 h2 h3
    have p1 := build_changes_pairwise o n
    have p2 := build_changes_pairwise o2 n2
    rw [eq_of_pairwiseFstLt_of_memEquiv Prod.fst _ _ p1.1 p2.1 h1,
      eq_of_pairwiseFstLt_of_memEquiv Prod.fst _ _ p1.2.1 p2.2.1 h2,
      eq_of_pairwiseFstLt_of_memEquiv Prod.fst _ _ p1.2.2 p2.2.2 h3]
  · dsimp only [watchdog_step]
    split_ifs with h1 h2 h3
    · rfl
    · rfl
    · rfl
    · exact absurd rfl h3
  · intro hnot
    dsimp only [watchdog_step] at hnot
    split_ifs at hnot with h1 h2 h3
    · injection hnot with h
      exact h.symm

/-- Witness for C7: `{} → {1:["C"]}` and the whitespace-variant
`{} → {1:[" C "]}` have set-equal change lists and the same fingerprint, and
a step whose persisted fingerprint is the freshly computed one skips. -/
theorem fingerprint_dedup_spec_witness :
    mkFingerprint (build_changes [] [(1, ["C"])]).1
        (build_changes [] [(1, ["C"])]).2.1 (build_changes [] [(1, ["C"])]).2.2 =
      mkFingerprint (build_changes [] [(1, [" C "])]).1
        (build_changes [] [(1, [" C "])]).2.1
        (build_changes [] [(1, [" C "])]).2.2 ∧
    watchdog_step [] [(1, ["C"])] (some (mkFingerprint
      (build_changes [] [(1, ["C"])]).1 (build_changes [] [(1, ["C"])]).2.1
      (build_changes [] [(1, ["C"])]).2.2)) = .skip := by
  have heq : build_changes [] [(1, [" C "])] = build_changes [] [(1, ["C"])] := by
    decide
  have h := fingerprint_dedup_spec [] [(1, ["C"])] [] [(1, [" C "])] none ""
  refine ⟨h.1 ?_ ?_ ?_, h.2.1⟩ <;> (intro x; rw [heq])

/-! ## The table parser (`parse_schedule`, schedule_service.py lines 75-192)

A parsed HTML document is modelled after the point where BeautifulSoup has
produced it: the table (if any) is a list of rows, each row the list of its
`<td>` cells.  A cell records the class markers the parser tests, the
attributes it reads, and the strings it extracts:
`text` stands for `td.get_text()` (fed to `_clean_text` for the pair-number
check), `title` for `_mk_full_title(td)` — the opaque
"subject | room | teacher" string, possibly empty — and `dateText` for
`td.get_text(separator="\n")` used on `rowspan` cells.  The `colspan`
attribute is `some s` when present and parsed by `int()` to the natural
number `s`; absence or an unparsable value falls back to span 1, mirroring
the `try/except` at lines 120-124. -/

structure Cell where
  classes_hd : Bool
  classes_ur : Bool
  has_rowspan : Bool
  colspan : Option Nat
  text : String
  title : String
  dateText : String
deriving DecidableEq

def cellSpan (c : Cell) : Nat :=
  match c.colspan with
  | some s => s
  | none => 1

/-- `content` of schedule_service.py lines 125-127: `None` unless the cell
carries the `ur` class, in which case `_mk_full_title(cell)`. -/
def cellContent (c : Cell) : Option String :=
  if c.classes_ur then some c.title else none

/-- `for k in range(span): if col + k < 5: groups[col + k] = content`. -/
def writeSpan (g : List (Option String)) (col span : Nat)
    (content : Option String) : List (Option String) :=
  (List.range span).foldl
    (fun acc k => if col + k < 5 then acc.set (col + k) content else acc) g

/-- The column-expansion loop of schedule_service.py lines 116-131: starting
from five `None` slots and column 0, each cell writes its content over its
span and advances the column counter. -/
def placeCells (cells : List Cell) : List (Option String) :=
  (cells.foldl
    (fun (acc : List (Option String) × Nat) cell =>
      (writeSpan acc.1 acc.2 (cellSpan cell) (cellContent cell),
        acc.2 + cellSpan cell))
    ([none, none, none, none, none], 0)).1

/-- Python truthiness of a `str | None` value: `None` and `""` are falsy. -/
def pyTruthy : Option String → Bool
  | none => false
  | some s => !(s == "")

/-- `common` of schedule_service.py lines 134-138: the first of logical
columns 2-4 that is not `None` (the loop `break`s there). -/
def commonOf (groups : List (Option String)) : Option String :=
  match groups.getD 2 none with
  | some v => some v
  | none =>
    match groups.getD 3 none with
    | some v => some v
    | none => groups.getD 4 none

/-- What the row stores for its pair number (schedule_service.py lines
139-157): nothing when all five columns are `None` or none is truthy;
`merged` fills `merge` and `pairs`; the split variants fill `pairs_cols`
and `pairs`. -/
inductive Slot
  | noSlot
  | merged (s : String)
  | splitBoth (a b : String)
  | firstOnly (a : String)
  | secondOnly (b : String)
deriving DecidableEq

/-- The decision chain of schedule_service.py lines 132-157 on the cells
after the pair-number cell. -/
def processRowCells (cells : List Cell) : Slot :=
  let groups := placeCells cells
  let first := groups.getD 0 none
  let second := groups.getD 1 none
  let common := commonOf groups
  if groups.all Option.isNone then .noSlot
  else if pyTruthy common then .merged (common.getD "")
  else if pyTruthy first && pyTruthy second then
    (if first = second then .merged (first.getD "")
      else .splitBoth (first.getD "") (second.getD ""))
  else if pyTruthy first then .firstOnly (first.getD "")
  else if pyTruthy second then .secondOnly (second.getD "")
  else .noSlot

/-- `str.isdigit()` on the cleaned cell text (ASCII digits). -/
def pyIsDigit (s : String) : Bool :=
  !s.data.isEmpty && s.data.all Char.isDigit

/-- `int(text)` for a digit string. -/
def strToNat (s : String) : Nat :=
  s.data.foldl (fun acc c => acc * 10 + (c.toNat - 48)) 0

/-- The pair-number search of schedule_service.py lines 104-115: the first
`hd`-classed cell whose cleaned text is all digits yields the pair number
and the cells after it (`tds[pair_idx + 1:]`); a row without one is
skipped. -/
def findPairAux : List Cell → Option (Nat × List Cell)
  | [] => none
  | td :: rest =>
    if td.classes_hd && pyIsDigit (pyClean td.text) then
      some (strToNat (pyClean td.text), rest)
    else findPairAux rest

/-- One per-date record of the schedule dict: `{"day": …, "pairs": …,
"pairs_cols": …, "merge": …}` plus the `lessons` lines added by the final
rendering pass (empty until then). -/
structure DayInfo where
  day : String
  pairs : List (Nat × List String)
  pairs_cols : List (Nat × List String)
  merge : List (Nat × String)
  lessons : List String
deriving DecidableEq

/-- Python dict assignment `d[k] = v` on an integer-keyed dict. -/
def dictSetN {α : Type} : List (Nat × α) → Nat → α → List (Nat × α)
  | [], k, v => [(k, v)]
  | (k0, v0) :: rest, k, v =>
    if k0 = k then (k, v) :: rest else (k0, v0) :: dictSetN rest k v

/-- Applying one of the eight block rows to the current date's record
(schedule_service.py lines 102-157). -/
def applyRow (info : DayInfo) (row : List Cell) : DayInfo :=
  match findPairAux row with
  | none => info
  | some (pair_num, cells) =>
    match processRowCells cells with
    | .noSlot => info
    | .merged s =>
      { info with merge := dictSetN info.merge pair_num s,
                  pairs := dictSetN info.pairs pair_num [s] }
    | .splitBoth a b =>
      { info with pairs_cols := dictSetN info.pairs_cols pair_num [a, b],
                  pairs := dictSetN info.pairs pair_num [a, b] }
    | .firstOnly a =>
      { info with pairs_cols := dictSetN info.pairs_cols pair_num [a, ""],
                  pairs := dictSetN info.pairs pair_num [a] }
    | .secondOnly b =>
      { info with pairs_cols := dictSetN info.pairs_cols pair_num ["", b],
                  pairs := dictSetN info.pairs pair_num [b] }

/-- `str.strip()` (the whitespace class of `isPySpace`). -/
def pyStrip (s : String) : String :=
  String.mk (stripSpaces s.data)

/-- Backtracking inside the trailing whitespace run for the optional group
`(?:\s+(.+))?` of `_DATE_RE` when everything after the date is whitespace:
`\s+` gives characters back until `.` can match a non-newline one. -/
def dayGroupBack (rest : List Char) : Nat → Option (List Char)
  | 0 => none
  | p + 1 =>
    if p = 0 then none
    else if rest.getD p '\n' ≠ '\n' then
      some ((rest.drop p).takeWhile (fun c => c ≠ '\n'))
    else dayGroupBack rest p

/-- The optional group `(?:\s+(.+))?` of `_DATE_RE` (schedule_service.py
line 38) applied right after the date: at least one whitespace character,
then a maximal non-empty run of non-newline characters (with `\s+` greedy
and backtracking). -/
def dayGroupSearch (rest : List Char) : Option (List Char) :=
  let w := (rest.takeWhile isPySpace).length
  if w = 0 then none
  else if rest.drop w ≠ [] then some ((rest.drop w).takeWhile (fun c => c ≠ '\n'))
  else dayGroupBack rest w

/-- `_DATE_RE` anchored at the current position:
`(\d{2}\.\d{2}\.\d{4})(?:\s+(.+))?`. -/
def matchDateAt (cs : List Char) : Option (String × Option (List Char)) :=
  match cs with
  | d1 :: d2 :: dot1 :: d3 :: d4 :: dot2 :: y1 :: y2 :: y3 :: y4 :: rest =>
    if d1.isDigit && d2.isDigit && dot1 == '.' && d3.isDigit && d4.isDigit &&
        dot2 == '.' && y1.isDigit && y2.isDigit && y3.isDigit && y4.isDigit then
      some (String.mk [d1, d2, dot1, d3, d4, dot2, y1, y2, y3, y4],
        dayGroupSearch rest)
    else none
  | _ => none

def dateSearchAux : List Char → Option (String × Option (List Char))
  | [] => none
  | c :: cs =>
    match matchDateAt (c :: cs) with
    | some r => some r
    | none => dateSearchAux cs

/-- `_DATE_RE.search(date_text)` followed by `date = m.group(1)` and
`dayname = (m.group(2) or "").strip()` (schedule_service.py lines 92-98). -/
def dateSearch (s : String) : Option (String × String) :=
  match dateSearchAux s.data with
  | none => none
  | some (date, g2) =>
    some (date, pyStrip (String.mk (g2.getD [])))

/-- The schedule under construction: a date-string-keyed dict. -/
abbrev Sched : Type := List (String × DayInfo)

/-- `schedule.setdefault(date, fresh)`. -/
def schedSetdefault (m : Sched) (k : String) (v : DayInfo) : Sched :=
  match List.lookup k m with
  | some _ => m
  | none => m ++ [(k, v)]

/-- In-place mutation of `schedule[date]`. -/
def schedUpdate (m : Sched) (k : String) (f : DayInfo → DayInfo) : Sched :=
  m.map (fun kv => if kv.1 = k then (k, f kv.2) else kv)

/-- The row scan of schedule_service.py lines 84-157: a row without a
`rowspan` cell, or whose date text has no `_DATE_RE` match, advances by one
row; a matching row opens (or reopens via `setdefault`) the date's record,
applies the eight rows `rows[i:i+8]` (the date row included), and resumes
after them (`i += 8`). -/
def scanRows : List (List Cell) → Sched → Sched
  | [], sched => sched
  | row :: rest, sched =>
    match row.find? (fun td => td.has_rowspan) with
    | none => scanRows rest sched
    | some dateCell =>
      match dateSearch (pyStrip dateCell.dateText) with
      | none => scanRows rest sched
      | some dd =>
        let sched1 := schedSetdefault sched dd.1 ⟨dd.2, [], [], [], []⟩
        let sched2 := schedUpdate sched1 dd.1
          (fun info => ((row :: rest).take 8).foldl applyRow info)
        scanRows (rest.drop 7) sched2
termination_by rows _ => rows.length
decreasing_by
  all_goals (simp only [List.length_cons, List.length_drop]; omega)

/-! ## The day renderer (schedule_service.py lines 158-188)

The string literals of this final pass are reproduced byte-for-byte from the
source file.  In schedule_service.py (unlike schedule_watchdog.py, whose
Cyrillic literals are intact) the literals are mojibake: the UTF-8 bytes of
the file encode, where the word "пара" was evidently intended, the character
sequence U+2013 U+00F8 U+2013 U+221E U+2014 U+00C4 U+2013 U+221E, and
similarly for "НЕТ", "①" and "②". -/

/-- The literal standing for "пара" in schedule_service.py lines 162-187. -/
def paraLit : String := "–ø–∞—Ä–∞"

/-- The literal standing for "НЕТ" in schedule_service.py lines 168 and 179. -/
def netLit : String := "–ù–ï–¢"

/-- The literal standing for "①" in schedule_service.py lines 173, 182, 185. -/
def circledOneLit : String := "‚ë†"

/-- The literal standing for "②" in schedule_service.py lines 174, 183, 187. -/
def circledTwoLit : String := "‚ë°"

/-- `f"{i_pair} <para>:"`, the common head of every rendered line. -/
def pairHeader (i : Nat) : String :=
  toString i ++ " " ++ paraLit ++ ":"

/-- Lines from `info["pairs"]` when neither `merge` nor a truthy
`pairs_cols` entry exists (schedule_service.py lines 166-174). -/
def linesFromPairs (info : DayInfo) (i : Nat) : List String :=
  match List.lookup i info.pairs with
  | none => [pairHeader i ++ " " ++ netLit]
  | some [] => [pairHeader i ++ " " ++ netLit]
  | some [x] => [pairHeader i ++ " " ++ x]
  | some (x :: y :: _) =>
    [pairHeader i, circledOneLit ++ " " ++ x, circledTwoLit ++ " " ++ y]

/-- Lines from a non-empty `pairs_cols` entry (schedule_service.py lines
176-187): `c1`/`c2` default to `""` past the end of the list. -/
def linesFromCols (i : Nat) (cols : List String) : List String :=
  let c1 := cols.getD 0 ""
  let c2 := cols.getD 1 ""
  if c1 = "" ∧ c2 = "" then [pairHeader i ++ " " ++ netLit]
  else if c1 ≠ "" ∧ c2 ≠ "" then
    [pairHeader i, circledOneLit ++ " " ++ c1, circledTwoLit ++ " " ++ c2]
  else if c1 ≠ "" then [pairHeader i ++ " " ++ circledOneLit ++ " " ++ c1]
  else [pairHeader i ++ " " ++ circledTwoLit ++ " " ++ c2]

/-- The rendered `lessons` lines of one date record (schedule_service.py
lines 159-187): for each pair 1-8, a `merge` entry wins, then a truthy
`pairs_cols` entry, then the `pairs` fallback. -/
def dayLessonLines (info : DayInfo) : List String :=
  (List.range' 1 8).flatMap (fun i =>
    match List.lookup i info.merge with
    | some m => [pairHeader i ++ " " ++ m]
    | none =>
      match List.lookup i info.pairs_cols with
      | some (c :: cs) => linesFromCols i (c :: cs)
      | _ => linesFromPairs info i)

/-- The final pass of `parse_schedule` (lines 158-188): store the rendered
lines in each record's `lessons` field. -/
def withLessons (sched : Sched) : Sched :=
  sched.map (fun kv => (kv.1, { kv.2 with lessons := dayLessonLines kv.2 }))

/-! ## Fetching and the top-level parser contract (schedule_service.py lines 64-72, 75-192) -/

/-- The outcome of `requests.get(url, …)` as `fetch_page` observes it, the
document already decomposed: `page` is the table found by
`soup.find("table", class_="output-table") or soup.find("table")` (`none`
when the markup holds no table), given as the `<td>` lists of its rows. -/
inductive FetchOutcome
  | netError (msg : String)
  | response (status : Nat) (page : Option (List (List Cell)))

/-- Embeds `fetch_page` (schedule_service.py lines 64-72): a transport
failure is an exception from `requests.get`, a non-200 status raises
`RuntimeError(f"HTTP {status}")`, otherwise the body is returned. -/
def fetch_page : FetchOutcome → Except String (Option (List (List Cell)))
  | .netError msg => .error msg
  | .response status page =>
    if status ≠ 200 then .error ("HTTP " ++ toString status) else .ok page

/-- Embeds `parse_schedule` (schedule_service.py lines 75-192): the whole
body runs inside `try/except Exception`, so an exception from `fetch_page`
degrades to `{}`; a document without a table returns `{}` from within the
body; otherwise the row scan builds the schedule and the final pass adds
the `lessons` lines. -/
def parse_schedule (f : FetchOutcome) : Sched :=
  match fetch_page f with
  | .error _ => []
  | .ok none => []
  | .ok (some rows) => withLessons (scanRows rows [])

/-- The date-block detection of one row: its first `rowspan` cell's
stripped text searched with `_DATE_RE`. -/
def rowDate (row : List Cell) : Option (String × String) :=
  match row.find? (fun td => td.has_rowspan) with
  | none => none
  | some dateCell => dateSearch (pyStrip dateCell.dateText)

theorem scanRows_eq_of_no_date (rows : List (List Cell)) (sched : Sched)
    (h : ∀ row ∈ rows, rowDate row = none) : scanRows rows sched = sched := by
  induction rows with
  | nil => rw [scanRows]
  | cons row rest ih =>
    have hrow := h row (List.mem_cons_self row rest)
    have hstep : scanRows (row :: rest) sched = scanRows rest sched := by
      cases hfind : row.find? (fun td => td.has_rowspan) with
      | none => rw [scanRows, hfind]
      | some c =>
        have hds : dateSearch (pyStrip c.dateText) = none := by
          unfold rowDate at hrow
          rw [hfind] at hrow
          exact hrow
        rw [scanRows, hfind]
        dsimp only
        rw [hds]
    rw [hstep]
    exact ih (fun r hr => h r (List.mem_cons.mpr (Or.inr hr)))

/-- Claim C4: `parse_schedule` surfaces no failure to its caller: a network
error and a non-200 HTTP status (exceptions raised inside the `try`) yield
the empty map, and so does markup without the expected shape — no table at
all, or a table none of whose rows carries a date-stamped `rowspan` cell. -/
theorem parse_schedule_spec (f : FetchOutcome) :
    (∀ msg, f = .netError msg → parse_schedule f = []) ∧
    (∀ status page, f = .response status page → status ≠ 200 →
      parse_schedule f = []) ∧
    (∀ status, f = .response status none → parse_schedule f = []) ∧
    (∀ status rows, f = .response status (some rows) →
      (∀ row ∈ rows, rowDate row = none) → parse_schedule f = []) := by
  refine ⟨?_, ?_, ?_, ?_⟩
  · intro msg hf; subst hf; rfl
  · intro status page hf hst
    subst hf
    simp [parse_schedule, fetch_page, hst]
  · intro status hf
    subst hf
    by_cases hst : status ≠ 200 <;> simp [parse_schedule, fetch_page, hst]
  · intro status rows hf hnd
    subst hf
    by_cases hst : status ≠ 200
    · simp [parse_schedule, fetch_page, hst]
    · simp only [parse_schedule, fetch_page, if_neg hst]
      rw [scanRows_eq_of_no_date rows [] hnd]
      rfl

/-- Witness for C4: a transport error, an HTTP 404, a table-less page, and
a table with one date-less row all parse to the empty map. -/
theorem parse_schedule_spec_witness :
    parse_schedule (.netError "timeout") = [] ∧
    parse_schedule (.response 404 (some [])) = [] ∧
    parse_schedule (.response 200 none) = [] ∧
    parse_schedule (.response 200 (some [[]])) = [] := by
  refine ⟨(parse_schedule_spec _).1 "timeout" rfl,
    (parse_schedule_spec _).2.1 404 (some []) rfl (by decide),
    (parse_schedule_spec _).2.2.1 200 rfl,
    (parse_schedule_spec _).2.2.2 200 [[]] rfl ?_⟩
  intro row hr
  rcases List.mem_singleton.mp hr with rfl
  rfl

/-! ## Claim C8: the merged/split decision -/

/-- A lesson-classed cell with the given extracted title and default span. -/
def urCell (t : String) : Cell :=
  ⟨false, true, false, none, "", t, ""⟩

/-- Counterexample to claim C8 as stated: logical column 2 holds a
lesson-classed cell whose extracted title is empty while column 3 holds the
populated content "X"; the code's `common` stops at the first non-`None`
column (the empty one), its truthiness test fails, and the pair falls back
to the subgroup columns as Split("A", "B") — not Merged("X"), although a
column among 2-4 holds populated lesson content. -/
theorem processRow_skips_populated_common_behind_empty :
    placeCells [urCell "A", urCell "B", urCell "", urCell "X"] =
      [some "A", some "B", some "", some "X", none] ∧
    processRowCells [urCell "A", urCell "B", urCell "", urCell "X"] =
      .splitBoth "A" "B" := by
  decide

theorem getD_none_of_all_none (g : List (Option String)) (i : Nat)
    (h : ∀ x ∈ g, x = none) : g.getD i none = none := by
  rcases hx : g[i]? with _ | v
  · simp [List.getD, hx]
  · have hx2 : g.get? i = some v := by rw [List.get?_eq_getElem?, hx]
    have hv := h v (List.get?_mem hx2)
    simp [List.getD, hx, hv]

theorem all_none_values (g : List (Option String))
    (h : g.all Option.isNone = true) : ∀ x ∈ g, x = none := by
  intro x hx
  have := List.all_eq_true.mp h x hx
  cases x
  · rfl
  · simp [Option.isNone] at this

theorem commonOf_none_of_all_none (g : List (Option String))
    (h : g.all Option.isNone = true) : commonOf g = none := by
  have h' := all_none_values g h
  unfold commonOf
  rw [getD_none_of_all_none g 2 h', getD_none_of_all_none g 3 h',
    getD_none_of_all_none g 4 h']

/-- Claim C8 (amended): for every pair row, if the *first* lesson-marked
column among 2-4 (the code's `common`, stopping at the first non-`None`
logical column) holds non-empty content `c`, the slot is Merged `c` and
columns 0-1 are disregarded; and when the common columns yield nothing
truthy while subgroup columns 0 and 1 hold textually identical non-empty
lessons, the Split collapses to a Merged slot with that one lesson. -/
theorem processRowCells_spec (cells : List Cell) (c s : String) :
    (commonOf (placeCells cells) = some c → c ≠ "" →
      processRowCells cells = .merged c) ∧
    (pyTruthy (commonOf (placeCells cells)) = false →
      (placeCells cells).getD 0 none = some s → s ≠ "" →
      (placeCells cells).getD 1 none = some s →
      processRowCells cells = .merged s) := by
  constructor
  · intro hc hcne
    have hall : (placeCells cells).all Option.isNone = false := by
      cases hall : (placeCells cells).all Option.isNone
      · rfl
      · rw [commonOf_none_of_all_none _ hall] at hc
        exact absurd hc (by simp)
    have htr : pyTruthy (commonOf (placeCells cells)) = true := by
      rw [hc]
      simp [pyTruthy, hcne]
    dsimp only [processRowCells]
    rw [hall, htr, hc]
    simp
  · intro htr h0 hs h1
    have hall : (placeCells cells).all Option.isNone = false := by
      cases hall : (placeCells cells).all Option.isNone
      · rfl
      · have := getD_none_of_all_none (placeCells cells) 0
          (all_none_values _ hall)
        rw [h0] at this
        exact absurd this (by simp)
    have hts : pyTruthy (some s) = true := by
      simp [pyTruthy, hs]
    dsimp only [processRowCells]
    rw [hall, htr, h0, h1, hts]
    simp

/-- Witness for the amended C8: a populated column 2 gives Merged("X")
regardless of the subgroup columns, and equal subgroup columns collapse to
Merged("A"). -/
theorem processRowCells_spec_witness :
    processRowCells [urCell "A", urCell "B", urCell "X"] = .merged "X" ∧
    processRowCells [urCell "A", urCell "A"] = .merged "A" := by
  exact ⟨(processRowCells_spec [urCell "A", urCell "B", urCell "X"] "X" "").1
      (by decide) (by decide),
    (processRowCells_spec [urCell "A", urCell "A"] "" "A").2
      (by decide) (by decide) (by decide) (by decide)⟩

/-! ## The watchdog's slot-line parser (`_parse_slots`, schedule_watchdog.py lines 36-63)

Unlike schedule_service.py, schedule_watchdog.py carries intact Cyrillic
literals: `_HEADER_RE` matches the word "пара" (U+043F U+0430 U+0440 U+0430),
`_NO_RE` the words "нет" / "нет пар" and the dashes, `_BULLET_RE` the bullets
"①", "②", "•", "-". -/

/-- `re.IGNORECASE` lowering for the characters these patterns involve:
the basic Cyrillic uppercase range and ASCII. -/
def lowerChar (c : Char) : Char :=
  if 0x410 ≤ c.toNat ∧ c.toNat ≤ 0x42f then Char.ofNat (c.toNat + 0x20)
  else c.toLower

/-- The word "пара" of `_HEADER_RE`, case-insensitively, consuming it. -/
def matchParaWord : List Char → Option (List Char)
  | p :: a :: r :: a2 :: rest =>
    if lowerChar p == 'п' && lowerChar a == 'а' && lowerChar r == 'р' &&
        lowerChar a2 == 'а' then some rest
    else none
  | _ => none

/-- `_HEADER_RE.match(line)` (schedule_watchdog.py line 14):
`^\s*(\d+)\s*пара\s*:\s*(.*)$` with `re.IGNORECASE`; yields the pair number
`int(m.group(1))` and the tail `m.group(2)`. -/
def matchHeader (line : String) : Option (Nat × String) :=
  let cs := line.data.dropWhile isPySpace
  let digits := cs.takeWhile Char.isDigit
  if digits.isEmpty then none
  else
    match matchParaWord ((cs.dropWhile Char.isDigit).dropWhile isPySpace) with
    | none => none
    | some rest2 =>
      match rest2.dropWhile isPySpace with
      | ':' :: rest3 =>
        some (strToNat (String.mk digits), String.mk (rest3.dropWhile isPySpace))
      | _ => none

/-- `_NO_RE.fullmatch` (schedule_watchdog.py line 16):
`^(нет|нет пар|—|-)$`, case-insensitive. -/
def isNoLine (s : String) : Bool :=
  let l := String.mk (s.data.map lowerChar)
  l == "нет" || l == "нет пар" || l == "—" || l == "-"

/-- `_BULLET_RE.sub("", ·)` (schedule_watchdog.py line 15): remove the
leading `\s*[①②•\-]\s*` when present (anchored, so at most one match). -/
def stripBullet (s : String) : String :=
  match s.data.dropWhile isPySpace with
  | c :: rest =>
    if c == '①' || c == '②' || c == '•' || c == '-' then
      String.mk (rest.dropWhile isPySpace)
    else s
  | [] => s

/-- Writing `slots[num] = [x for x in items if x]` for the currently open
header, if any. -/
def slotsFlush (slots : List (Nat × List String)) :
    Option (Nat × List String) → List (Nat × List String)
  | none => slots
  | some (num, items) => dictSetN slots num (items.filter (fun x => x ≠ ""))

/-- One line of `_parse_slots`: a header line closes the open header (the
inner `while` of lines 53-60 ran up to it) and opens a new one seeded with
the cleaned tail (when truthy and not a NO-marker, bullet-stripped); a
non-header line extends the open header the same way, or is skipped when no
header is open yet (`j += 1; continue`). -/
def slotsStep (st : List (Nat × List String) × Option (Nat × List String))
    (raw : String) : List (Nat × List String) × Option (Nat × List String) :=
  let line := pyClean raw
  match matchHeader line with
  | some nt =>
    let tail := pyClean nt.2
    let items := if tail ≠ "" ∧ ¬ isNoLine tail then [stripBullet tail] else []
    (slotsFlush st.1 st.2, some (nt.1, items))
  | none =>
    match st.2 with
    | none => st
    | some ni =>
      if line ≠ "" ∧ ¬ isNoLine line then
        (st.1, some (ni.1, ni.2 ++ [stripBullet line]))
      else st

/-- Embeds `_parse_slots` (schedule_watchdog.py lines 36-63): the nested
`while` loops are one left-to-right pass whose state is the accumulated
dict and the currently open header; the open header is flushed on the next
header line and at the end of input. -/
def parse_slots (lines : List String) : List (Nat × List String) :=
  let st := lines.foldl slotsStep ([], none)
  slotsFlush st.1 st.2

/-- Embeds `_normalize_day_lines` (schedule_watchdog.py lines 31-34):
`normalize_day` (schedule_service.py lines 217-220) returns the record's
stored `lessons` list, which `lines or []` passes through unchanged when
non-empty. -/
def normalize_day_lines (info : DayInfo) : List String :=
  info.lessons

/-! ## Claim C10: the renderer / slot-parser round trip -/

def exDateCell : Cell := ⟨false, false, true, none, "", "", "01.02.2024"⟩

def exHdCell : Cell := ⟨true, false, false, none, "1", "", ""⟩

/-- One date block: the date row carries the date cell, the pair-number
cell "1", and two identical whole-row lessons in subgroup columns 0 and 1
(which the parser collapses to a merged slot). -/
def exRow : List Cell := [exDateCell, exHdCell, urCell "X", urCell "X"]

def exFetch : FetchOutcome := .response 200 (some [exRow])

/-- The `lessons` lines the renderer produces for the block of `exRow`:
pair 1 merged to "X", pairs 2-8 empty — all headed by the mojibake
literal. -/
def exLessons : List String :=
  (toString 1 ++ " " ++ paraLit ++ ": X") ::
    (List.range' 2 7).map (fun i => toString i ++ " " ++ paraLit ++ ": " ++ netLit)

def exParsedDay : DayInfo := ⟨"", [(1, ["X"])], [], [(1, "X")], exLessons⟩

/-- Claim C10 (code bug): the round trip from the parser's rendered
`lessons` lines back through the watchdog's slot-line parser does NOT
recover the pair contents.  `parse_schedule` renders its header word as the
mojibake literal `paraLit` of schedule_service.py, while `_HEADER_RE` of
schedule_watchdog.py matches the intact Cyrillic "пара"; no rendered line
ever matches, so `_parse_slots` returns the empty map — here a fetched day
with pair 1 merged to "X" round-trips to `{}` instead of `{1: ["X"]}` —
whereas the same lines with the intact word parse exactly as the claim
describes. -/
theorem lessons_roundtrip_broken :
    parse_schedule exFetch = [("01.02.2024", exParsedDay)] ∧
    parse_slots (normalize_day_lines exParsedDay) = [] ∧
    parse_slots ["1 пара: X", "2 пара: НЕТ"] = [(1, ["X"]), (2, [])] := by
  refine ⟨?_, by decide, by decide⟩
  have h1 : scanRows [exRow] [] =
      [("01.02.2024", ⟨"", [(1, ["X"])], [], [(1, "X")], []⟩)] := by
    rw [scanRows]
    have hf : List.find? (fun td => td.has_rowspan) exRow = some exDateCell := by
      decide
    rw [hf]
    dsimp only
    have hd : dateSearch (pyStrip exDateCell.dateText) =
        some ("01.02.2024", "") := by decide
    rw [hd]
    dsimp only
    show scanRows [] _ = _
    rw [scanRows]
    decide
  have h2 : parse_schedule exFetch = withLessons (scanRows [exRow] []) := rfl
  rw [h2, h1]
  decide

/-! ## The watchdog loop's control flow (schedule_watchdog.py lines 205-276)

The `try` at line 213 wraps the whole pass over `(group, url)` pairs and
target dates; the `except` at line 274 logs and the loop sleeps and starts
the next cycle.  One (group, date) iteration is modelled by the data it
depends on once the fetch and state loads are done. -/

/-- A recipient from `get_users_for_schedule_notifications`, with the
outcome of the `is_user_banned` check folded in. -/
structure UserRec where
  tg_id : Option Nat
  banned : Bool
deriving DecidableEq

/-- The outcome of one `bot.send_message` call. -/
inductive SendOutcome
  | delivered
  | typeError
  | otherError
deriving DecidableEq

/-- What the loop of lines 257-270 did to one recipient. -/
inductive UserAction
  | skippedNoId
  | skippedBanned
  | sent
  | markedBlocked
deriving DecidableEq

/-- Embeds lines 258-270 for one recipient: a missing `tg_id` or a banned
user is skipped; the send is attempted with `disable_web_page_preview=True`
(second argument `true`); a `TypeError` retries the plain call *inside the
`except TypeError` handler*, where a further exception is not caught by the
sibling `except Exception` and propagates; any other exception runs
`set_user_blocked(tg_id, True)`. -/
def process_user (send : Nat → Bool → SendOutcome) (u : UserRec) :
    Except String UserAction :=
  match u.tg_id with
  | none => .ok .skippedNoId
  | some uid =>
    if u.banned then .ok .skippedBanned
    else
      match send uid true with
      | .delivered => .ok .sent
      | .otherError => .ok .markedBlocked
      | .typeError =>
        match send uid false with
        | .delivered => .ok .sent
        | _ => .error "exception inside the TypeError handler"

/-- The sequential recipient loop; an uncaught exception aborts it and
propagates out of the (group, date) iteration. -/
def process_users (send : Nat → Bool → SendOutcome) :
    List UserRec → Except String (List UserAction)
  | [] => .ok []
  | u :: us =>
    match process_user send u with
    | .error e => .error e
    | .ok a =>
      match process_users send us with
      | .error e => .error e
      | .ok as => .ok (a :: as)

/-- Everything one (group, date) iteration depends on, fetch and state
loads already evaluated: the old and fresh slot maps, the persisted
fingerprint for the key, the recipients, and the send oracle. -/
structure TargetEnv where
  old_slots : SlotMap
  new_slots : SlotMap
  stored : Option String
  users : List UserRec
  send : Nat → Bool → SendOutcome

/-- The observable outcome of one completed (group, date) iteration:
whether a message was composed and dispatched, the per-recipient actions,
and whether `_save_week` and the fingerprint write ran. -/
structure TargetDone where
  notified : Bool
  actions : List UserAction
  persisted : Bool
  fp : Option String
deriving DecidableEq

/-- One (group, date) iteration (lines 234-273) after the fetch: the
decision chain of `watchdog_step`; in the notify case the recipient loop
runs, and only after it complete `_save_week` and `state[key] = fingerprint`
execute — an exception escaping the recipient loop propagates and skips
them. -/
def process_target (env : TargetEnv) : Except String TargetDone :=
  match watchdog_step env.old_slots env.new_slots env.stored with
  | .skip => .ok ⟨false, [], false, none⟩
  | .notify fp =>
    match process_users env.send env.users with
    | .error e => .error e
    | .ok as => .ok ⟨true, as, true, some fp⟩

/-- The pass over all (group, date) targets of one cycle, inside the
cycle-level `try` of line 213: the first uncaught exception aborts the
remaining targets and becomes the cycle's logged error. -/
def run_targets {α β : Type} (f : α → Except String β) :
    List α → List (α × β) × Option String
  | [] => ([], none)
  | t :: ts =>
    match f t with
    | .error e => ([], some e)
    | .ok b =>
      let r := run_targets f ts
      ((t, b) :: r.1, r.2)

/-- The never-ending `while True` (lines 207-276), fuel-indexed for
observation: every cycle runs to its end — errors are caught and logged by
the `except` at line 274, never propagated — and the next cycle follows
unconditionally. -/
def watchdog_cycles {α β : Type} (f : α → Except String β) (targets : List α) :
    Nat → List (List (α × β) × Option String)
  | 0 => []
  | n + 1 => run_targets f targets :: watchdog_cycles f targets n

def exceptOk {β : Type} : Except String β → Bool
  | .ok _ => true
  | .error _ => false

def exceptError {β : Type} : Except String β → Option String
  | .error e => some e
  | .ok _ => none

theorem run_targets_all_ok {α β : Type} (f : α → Except String β) :
    ∀ ts : List α, (∀ t ∈ ts, exceptOk (f t) = true) →
      (run_targets f ts).1.map Prod.fst = ts ∧ (run_targets f ts).2 = none := by
  intro ts
  induction ts with
  | nil => intro _; exact ⟨rfl, rfl⟩
  | cons t ts ih =>
    intro h
    have ht := h t (List.mem_cons_self t ts)
    have hrest := ih (fun r hr => h r (List.mem_cons.mpr (Or.inr hr)))
    cases hft : f t with
    | error e => rw [hft] at ht; simp [exceptOk] at ht
    | ok b =>
      simp only [run_targets, hft, List.map_cons]
      exact ⟨by rw [hrest.1], hrest.2⟩

theorem run_targets_error {α β : Type} (f : α → Except String β) (e : String) :
    ∀ (pre : List α) (bad : α) (post : List α),
      (∀ t ∈ pre, exceptOk (f t) = true) → exceptError (f bad) = some e →
      (run_targets f (pre ++ bad :: post)).1.map Prod.fst = pre ∧
      (run_targets f (pre ++ bad :: post)).2 = some e := by
  intro pre
  induction pre with
  | nil =>
    intro bad post _ hbad
    cases hfb : f bad with
    | error e2 =>
      rw [hfb] at hbad
      simp only [exceptError, Option.some.injEq] at hbad
      subst hbad
      simp [run_targets, hfb]
    | ok b => rw [hfb] at hbad; simp [exceptError] at hbad
  | cons t ts ih =>
    intro bad post h hbad
    have ht := h t (List.mem_cons_self t ts)
    cases hft : f t with
    | error e2 => rw [hft] at ht; simp [exceptOk] at ht
    | ok b =>
      have hrest := ih bad post (fun r hr => h r (List.mem_cons.mpr (Or.inr hr))) hbad
      simp only [List.cons_append, run_targets, hft, List.map_cons, List.append_eq]
      exact ⟨by rw [hrest.1], hrest.2⟩

theorem watchdog_cycles_length {α β : Type} (f : α → Except String β)
    (targets : List α) : ∀ n, (watchdog_cycles f targets n).length = n := by
  intro n
  induction n with
  | zero => rfl
  | succ n ih => simp only [watchdog_cycles, List.length_cons, ih]

/-- An iteration that raises: the diff `{} → {1:["C"]}` forces a
notification, and the sole recipient's send raises `TypeError` whose
in-handler retry raises again. -/
def exBadEnv : TargetEnv :=
  ⟨[], [(1, ["C"])], none, [⟨some 7, false⟩], fun _ _ => .typeError⟩

/-- An iteration that completes: the diff `{} → {2:["D"]}` notifies its
sole recipient successfully. -/
def exGoodEnv : TargetEnv :=
  ⟨[], [(2, ["D"])], none, [⟨some 8, false⟩], fun _ _ => .delivered⟩

/-- Counterexample to claim C2 as stated: the `try` of line 213 wraps the
whole cycle, not one (group, date) iteration, so the exception raised in
the first target aborts the remaining targets of the same cycle: the good
target completes when it is the whole cycle, but is not processed when it
follows the failing one. -/
theorem cycle_exception_skips_remaining_targets :
    (run_targets process_target [exBadEnv, exGoodEnv]).2 =
      some "exception inside the TypeError handler" ∧
    (run_targets process_target [exBadEnv, exGoodEnv]).1.length = 0 ∧
    (run_targets process_target [exGoodEnv]).1.length = 1 := by
  decide

/-- Claim C2 (amended): an exception inside one (group, date) iteration is
caught and logged at the *cycle* level and the never-ending loop is not
aborted — every cycle still runs — but the remaining targets of the same
cycle are skipped: the cycle completes exactly the error-free targets
before the failing one, and the failing target's error is what gets
logged. -/
theorem watchdog_cycle_error_spec (targets pre post : List TargetEnv)
    (bad : TargetEnv) (e : String) (n : Nat) :
    ((∀ t ∈ targets, exceptOk (process_target t) = true) →
      (run_targets process_target targets).1.map Prod.fst = targets ∧
      (run_targets process_target targets).2 = none) ∧
    ((∀ t ∈ pre, exceptOk (process_target t) = true) →
      exceptError (process_target bad) = some e →
      (run_targets process_target (pre ++ bad :: post)).1.map Prod.fst = pre ∧
      (run_targets process_target (pre ++ bad :: post)).2 = some e) ∧
    (watchdog_cycles process_target targets n).length = n :=
  ⟨run_targets_all_ok process_target targets,
    fun h1 h2 => run_targets_error process_target e pre bad post h1 h2,
    watchdog_cycles_length process_target targets n⟩

/-- Witness for the amended C2: with the failing target first, the cycle
logs its error and completes nothing, the same good target alone completes,
and three fueled cycles all run. -/
theorem watchdog_cycle_error_spec_witness :
    ((run_targets process_target [exGoodEnv]).1.map Prod.fst = [exGoodEnv] ∧
      (run_targets process_target [exGoodEnv]).2 = none) ∧
    ((run_targets process_target [exBadEnv, exGoodEnv]).1.map Prod.fst = [] ∧
      (run_targets process_target [exBadEnv, exGoodEnv]).2 =
        some "exception inside the TypeError handler") ∧
    (watchdog_cycles process_target [exBadEnv, exGoodEnv] 3).length = 3 := by
  refine ⟨(watchdog_cycle_error_spec [exGoodEnv] [] [] exBadEnv "" 3).1 ?_,
    ?_,
    (watchdog_cycle_error_spec [exBadEnv, exGoodEnv] [] [] exBadEnv "" 3).2.2⟩
  · intro t ht
    rcases List.mem_singleton.mp ht with rfl
    decide
  · have h := (watchdog_cycle_error_spec [exBadEnv, exGoodEnv] [] [exGoodEnv]
      exBadEnv "exception inside the TypeError handler" 3).2.1
      (by intro t ht; simp at ht) (by decide)
    simpa using h

/-! ## Claim C9: delivery failures -/

/-- The action recorded for a recipient whenever `process_user` completes
without raising: skip without id, skip when banned, blocked on a generic
send exception, sent otherwise (including the successful in-handler retry
after a `TypeError`; when that retry fails `process_user` raises instead
and no action results). -/
def userActionOf (send : Nat → Bool → SendOutcome) (u : UserRec) : UserAction :=
  match u.tg_id with
  | none => .skippedNoId
  | some uid =>
    if u.banned then .skippedBanned
    else
      match send uid true with
      | .delivered => .sent
      | .otherError => .markedBlocked
      | .typeError => .sent

theorem process_user_eq (send : Nat → Bool → SendOutcome) (u : UserRec)
    (h : ∀ uid, u.tg_id = some uid → u.banned = false →
      send uid true ≠ .typeError) :
    process_user send u = .ok (userActionOf send u) := by
  unfold process_user userActionOf
  cases hid : u.tg_id with
  | none => rfl
  | some uid =>
    by_cases hb : u.banned = true
    · simp [hb]
    · have hb2 : u.banned = false := by
        cases hbb : u.banned
        · rfl
        · exact absurd hbb hb
      have hnt := h uid hid hb2
      simp only [hb2, if_false, Bool.false_eq_true]
      cases hs : send uid true with
      | delivered => rfl
      | typeError => exact absurd hs hnt
      | otherError => rfl

theorem process_users_eq (send : Nat → Bool → SendOutcome) :
    ∀ us : List UserRec,
      (∀ u ∈ us, ∀ uid, u.tg_id = some uid → u.banned = false →
        send uid true ≠ .typeError) →
      process_users send us = .ok (us.map (userActionOf send)) := by
  intro us
  induction us with
  | nil => intro _; rfl
  | cons u us ih =>
    intro h
    have hu := process_user_eq send u (h u (List.mem_cons_self u us))
    have hrest := ih (fun r hr => h r (List.mem_cons.mpr (Or.inr hr)))
    simp only [process_users, hu, hrest, List.map_cons]

/-- Counterexample to claim C9 as stated: a send that fails with
`TypeError` and whose in-handler retry fails again does NOT mark the
recipient blocked; the exception escapes the iteration, nothing is
persisted, and the remaining targets of the cycle are dropped. -/
theorem send_typeerror_retry_aborts_iteration :
    exceptError (process_target exBadEnv) =
      some "exception inside the TypeError handler" ∧
    (run_targets process_target [exBadEnv, exGoodEnv]).2 ≠ none := by
  decide

/-- Claim C9 (amended): when the send to a recipient fails with an
exception other than `TypeError`, the recipient is marked blocked and the
iteration is not aborted: every recipient still gets its action (skips,
sends or blocked marks), the snapshot and fingerprint are persisted, and
later (group, date) targets of the cycle are still processed.  (A
`TypeError` instead triggers one plain retry inside its handler; only when
that retry itself fails does the exception escape.) -/
theorem delivery_failure_spec (env : TargetEnv) (fp : String)
    (ts : List TargetEnv)
    (hstep : watchdog_step env.old_slots env.new_slots env.stored = .notify fp)
    (hsend : ∀ u ∈ env.users, ∀ uid, u.tg_id = some uid → u.banned = false →
      env.send uid true ≠ .typeError) :
    process_target env =
      .ok ⟨true, env.users.map (userActionOf env.send), true, some fp⟩ ∧
    (run_targets process_target (env :: ts)).1.map Prod.fst =
      env :: (run_targets process_target ts).1.map Prod.fst ∧
    (run_targets process_target (env :: ts)).2 =
      (run_targets process_target ts).2 := by
  have hok : process_target env =
      .ok ⟨true, env.users.map (userActionOf env.send), true, some fp⟩ := by
    unfold process_target
    rw [hstep, process_users_eq env.send env.users hsend]
  refine ⟨hok, ?_, ?_⟩
  · simp only [run_targets, hok, List.map_cons]
  · simp only [run_targets, hok]

/-- Witness for the amended C9: of two eligible recipients, the first send
raises a generic exception (recipient marked blocked) and the second is
delivered; the iteration persists its state, and a following good target
of the same cycle is processed too. -/
theorem delivery_failure_spec_witness :
    process_target
        ⟨[], [(3, ["E"])], none, [⟨some 1, false⟩, ⟨some 2, false⟩],
          fun uid _ => if uid = 1 then .otherError else .delivered⟩ =
      .ok ⟨true, [.markedBlocked, .sent], true,
        some (mkFingerprint (build_changes [] [(3, ["E"])]).1
          (build_changes [] [(3, ["E"])]).2.1
          (build_changes [] [(3, ["E"])]).2.2)⟩ ∧
    (run_targets process_target
        [⟨[], [(3, ["E"])], none, [⟨some 1, false⟩, ⟨some 2, false⟩],
          fun uid _ => if uid = 1 then .otherError else .delivered⟩,
         exGoodEnv]).1.length = 2 := by
  have hstep : watchdog_step
      ([] : SlotMap) [(3, ["E"])] none =
      .notify (mkFingerprint (build_changes [] [(3, ["E"])]).1
        (build_changes [] [(3, ["E"])]).2.1
        (build_changes [] [(3, ["E"])]).2.2) := by decide
  have h := delivery_failure_spec
    ⟨[], [(3, ["E"])], none, [⟨some 1, false⟩, ⟨some 2, false⟩],
      fun uid _ => if uid = 1 then .otherError else .delivered⟩
    (mkFingerprint (build_changes [] [(3, ["E"])]).1
      (build_changes [] [(3, ["E"])]).2.1
      (build_changes [] [(3, ["E"])]).2.2)
    [exGoodEnv] hstep ?_
  · refine ⟨?_, ?_⟩
    · rw [h.1]
      congr 1
    · have h2 := h.2.1
      have h3 : (run_targets process_target [exGoodEnv]).1.map Prod.fst =
          [exGoodEnv] := by
        exact (run_targets_all_ok process_target [exGoodEnv]
          (by intro t ht; rcases List.mem_singleton.mp ht with rfl; decide)).1
      have h4 := congrArg List.length h2
      rw [h3] at h4
      simpa using h4
  · intro u hu uid hid hb
    rcases List.mem_cons.mp hu with rfl | hu2
    · simp only [Option.some.injEq] at hid
      subst hid
      decide
    · rcases List.mem_singleton.mp hu2 with rfl
      simp only [Option.some.injEq] at hid
      subst hid
      decide

end Recode
